import Mathlib

/-!
Verification of the ResumeForge extraction-and-scoring pipeline.

This file shallowly embeds the pipeline of `backend/app` (text normalization,
section segmentation, experience extraction, metrics, ATS scoring, job-keyword
match scoring, summary extraction) as executable Lean definitions, and settles
the frozen claims about it.  Python strings are modelled as `String`/`List Char`
(the relevant character classes are modelled over ASCII, which covers every
input appearing in the claims and counterexamples); Python `int` is `Int`/`Nat`;
`None`-able values are `Option`; code that can raise is modelled in
`Except String`.
-/

namespace ResumeForge

/-! ### Python primitives -/

/-- Python whitespace class `\s` (ASCII fragment): space, tab, newline,
carriage return, vertical tab, form feed. -/
def pyWS (c : Char) : Bool :=
  c = ' ' || c = '\t' || c = '\n' || c = '\r' || c = '\x0b' || c = '\x0c'

/-- Python word class `\w` (ASCII fragment): letters, digits, underscore. -/
def pyWordChar (c : Char) : Bool :=
  c.isAlpha || c.isDigit || c = '_'

/-- Drop trailing characters satisfying `p` (helper for `str.strip`). -/
def dropTrailing (p : Char → Bool) (l : List Char) : List Char :=
  (l.reverse.dropWhile p).reverse

/-- Python `str.strip()`: remove leading and trailing whitespace. -/
def stripCh (l : List Char) : List Char :=
  dropTrailing pyWS (l.dropWhile pyWS)

/-- Python `str.strip()` on `String`. -/
def pyStrip (s : String) : String :=
  String.mk (stripCh s.toList)

/-- Truthiness of a Python `Optional[str]`: `None` and `""` are falsy. -/
def pyTruthy : Option String → Bool
  | none => false
  | some s => !s.isEmpty

/-- Length of `x or ''` for a Python `Optional[str]`. -/
def pyLen : Option String → Nat
  | none => 0
  | some s => s.length

/-- Value of `x or ''` for a Python `Optional[str]`. -/
def pyOrEmpty : Option String → String
  | none => ""
  | some s => s

/-- Python `str.lower()` (ASCII fragment), character by character.  (The
core `String.toLower` is equivalent but is defined through byte positions,
which do not reduce inside the kernel; this list-based version does.) -/
def strToLower (s : String) : String :=
  String.mk (s.toList.map Char.toLower)

/-- Substring membership on `List Char` (Python `needle in hay`). -/
def listIn : List Char → List Char → Bool
  | n, [] => n.isEmpty
  | n, h@(_ :: t) => n.isPrefixOf h || listIn n t

/-- Substring membership on `String` (Python `needle in hay`). -/
def strIn (needle hay : String) : Bool :=
  listIn needle.toList hay.toList

/-- First-occurrence split (Python `s.split(sep, 1)` when `sep` occurs):
returns the parts before and after the first occurrence of `sep`, or `none`
when `sep` does not occur. -/
def splitFirst (sep : List Char) : List Char → Option (List Char × List Char)
  | [] => if sep.isEmpty then some ([], []) else none
  | h@(c :: t) =>
    if sep.isPrefixOf h then some ([], h.drop sep.length)
    else (splitFirst sep t).map fun p => (c :: p.1, p.2)

/-- Digit run with single interior underscores, as accepted by the Python
`int` builtin (`"1_000"`); returns its value. -/
def pyDigits : Nat → List Char → Option Nat
  | acc, [] => some acc
  | acc, '_' :: c :: rest =>
    if c.isDigit then pyDigits (acc * 10 + (c.toNat - 48)) rest else none
  | acc, c :: rest =>
    if c.isDigit then pyDigits (acc * 10 + (c.toNat - 48)) rest else none

/-- The Python `int` builtin on strings: optional surrounding whitespace, an
optional sign, then a nonempty digit run (underscore separators allowed).
Returns `none` where Python raises `ValueError`. -/
def pyInt? (s : String) : Option Int :=
  match stripCh s.toList with
  | '+' :: c :: rest =>
    if c.isDigit then (pyDigits (c.toNat - 48) rest).map Int.ofNat else none
  | '-' :: c :: rest =>
    if c.isDigit then (pyDigits (c.toNat - 48) rest).map (fun n => -(n : Int)) else none
  | c :: rest =>
    if c.isDigit then (pyDigits (c.toNat - 48) rest).map Int.ofNat else none
  | [] => none

/-! ### Regex fragment

The pipeline uses a handful of concrete regular expressions.  `PTok` is a
token language rich enough to express them exactly: literal characters
(case-sensitive and, for `re.IGNORECASE`, case-insensitive), `\d+`, `\s*`,
`\s+` and an optional single character (`:?`).  `reMatchAt` decides by full
backtracking whether a token list matches some prefix of the input, which is
exactly the existence semantics of a Python regex match at a position;
`reSearch` scans positions left to right like `re.search`. -/

inductive PTok where
  | lit (c : Char)
  | litCI (c : Char)
  | digit1
  | ws0
  | ws1
  | optChar (c : Char)
deriving DecidableEq, Repr

/-- The ways one token can consume a prefix of `s`: the list of possible
rests (regex backtracking nondeterminism as a finite set of choices). -/
def tokConsume : PTok → List Char → List (List Char)
  | PTok.lit _, [] => []
  | PTok.lit c, d :: ds => if c = d then [ds] else []
  | PTok.litCI _, [] => []
  | PTok.litCI c, d :: ds => if c.toLower = d.toLower then [ds] else []
  | PTok.digit1, s =>
    (List.range (s.takeWhile Char.isDigit).length).map fun i => s.drop (i + 1)
  | PTok.ws0, s =>
    (List.range ((s.takeWhile pyWS).length + 1)).map fun i => s.drop i
  | PTok.ws1, s =>
    (List.range (s.takeWhile pyWS).length).map fun i => s.drop (i + 1)
  | PTok.optChar _, [] => [[]]
  | PTok.optChar c, d :: ds => if c = d then [d :: ds, ds] else [d :: ds]

/-- Backtracking matcher: does `toks` match some prefix of `s`? -/
def reMatchAt : List PTok → List Char → Bool
  | [], _ => true
  | t :: ts, s => (tokConsume t s).any fun s2 => reMatchAt ts s2

/-- Alternation search: does any alternative match at any position?
(`re.search` truthiness for a pattern that is an alternation of the
token lists in `alts`.) -/
def reSearch (alts : List (List PTok)) : List Char → Bool
  | [] => alts.any fun t => reMatchAt t []
  | s@(_ :: ds) => (alts.any fun t => reMatchAt t s) || reSearch alts ds

/-- Case-sensitive literal word as tokens. -/
def litStr (w : String) : List PTok := w.toList.map PTok.lit

/-- Case-insensitive literal word as tokens. -/
def litStrCI (w : String) : List PTok := w.toList.map PTok.litCI

/-! ### `text_processor.clean_text` -/

/-- Characters kept by `clean_text`: word characters, whitespace, and the
punctuation period, comma, semicolon, colon, hyphen, single quote, double
quote and parentheses; everything else is removed. -/
def cleanKeep (c : Char) : Bool :=
  pyWordChar c || pyWS c || c = '.' || c = ',' || c = ';' || c = ':' ||
    c = '-' || c = '\'' || c = '"' || c = '(' || c = ')'

/-- One pass of `re.sub(r'\s+', ' ', text)`: each maximal whitespace run
becomes a single space.  `prevWS` records whether the previous character was
part of a run already replaced. -/
def collapseWS : Bool → List Char → List Char
  | _, [] => []
  | prevWS, c :: rest =>
    if pyWS c then
      if prevWS then collapseWS true rest else ' ' :: collapseWS true rest
    else c :: collapseWS false rest

/-- `text_processor.clean_text`: collapse whitespace runs, remove characters
outside the allowed set, then strip. -/
def clean_text (s : String) : String :=
  if s.isEmpty then ""
  else String.mk (stripCh ((collapseWS false s.toList).filter cleanKeep))

/-! ### `text_processor.split_into_sections` -/

/-- Python `text.split('\n')` on character lists. -/
def splitLinesCh : List Char → List (List Char)
  | [] => [[]]
  | c :: t =>
    if c = '\n' then [] :: splitLinesCh t
    else
      match splitLinesCh t with
      | [] => [[c]]
      | l :: ls => (c :: l) :: ls

/-- Python `'\n'.join` on character lists. -/
def joinLinesCh : List (List Char) → List Char
  | [] => []
  | [x] => x
  | x :: xs => x ++ '\n' :: joinLinesCh xs

/-- Lines of a string, as strings (model of `text.split('\n')`). -/
def linesOf (s : String) : List String :=
  (splitLinesCh s.toList).map String.mk

/-- Common tail of every section-header pattern: `\s*:?\s*\n`. -/
def hdrTail : List PTok := [PTok.ws0, PTok.optChar ':', PTok.ws0, PTok.lit '\n']

/-- One alternative of a section-header pattern: the given words joined by
`\s+`, followed by `hdrTail`.  The words are the lowercase literals of the
source patterns (searched without `re.IGNORECASE`). -/
def hdrAlt (ws : List String) : List PTok :=
  List.intercalate [PTok.ws1] (ws.map litStr) ++ hdrTail

/-- The section patterns of `split_into_sections`, in dict order. -/
def sectionPatterns : List (String × List (List PTok)) :=
  [ ("summary", [hdrAlt ["summary"], hdrAlt ["profile"], hdrAlt ["objective"],
      hdrAlt ["about"]]),
    ("experience", [hdrAlt ["experience"], hdrAlt ["work", "experience"],
      hdrAlt ["employment"], hdrAlt ["professional", "experience"]]),
    ("education", [hdrAlt ["education"], hdrAlt ["academic"],
      hdrAlt ["qualifications"]]),
    ("skills", [hdrAlt ["skills"], hdrAlt ["technical", "skills"],
      hdrAlt ["competencies"]]),
    ("certifications", [hdrAlt ["certifications"], hdrAlt ["certificates"],
      hdrAlt ["credentials"]]),
    ("projects", [hdrAlt ["projects"], hdrAlt ["portfolio"]]) ]

/-- The section names, in pattern order. -/
def sectionNames : List String :=
  ["summary", "experience", "education", "skills", "certifications", "projects"]

/-- First section whose pattern matches `line.upper().strip()` (the inner
loop of `split_into_sections`, with its `break`). -/
def sectionHeaderFor (lineUpper : List Char) : Option String :=
  sectionPatterns.findSome? fun p =>
    if reSearch p.2 lineUpper then some p.1 else none

/-- Python dict assignment `d[k] = v` on an insertion-ordered assoc list. -/
def dictSet (l : List (String × String)) (k : String) (v : String) :
    List (String × String) :=
  if l.any (fun p => p.1 = k) then
    l.map fun p => if p.1 = k then (k, v) else p
  else l ++ [(k, v)]

/-- The line loop of `split_into_sections`, including the final flush. -/
def splitSectionsLoop :
    List (List Char) → String → List (List Char) → List (String × String) →
      List (String × String)
  | [], curSec, curText, secs =>
    if curText.isEmpty then secs
    else dictSet secs curSec (String.mk (joinLinesCh curText))
  | line :: rest, curSec, curText, secs =>
    match sectionHeaderFor (stripCh (line.map Char.toUpper)) with
    | some name =>
      let secs' :=
        if curSec ≠ "header" then
          dictSet secs curSec (String.mk (joinLinesCh curText))
        else secs
      splitSectionsLoop rest name [] secs'
    | none => splitSectionsLoop rest curSec (curText ++ [line]) secs

/-- `text_processor.split_into_sections`. -/
def split_into_sections (text : String) : List (String × String) :=
  splitSectionsLoop (splitLinesCh text.toList) "header" [] []

/-! ### Data model (`models/resume_model.py`)

Fields that only serve orchestration and storage (id, filename, timestamps,
version history, tags) are not consumed by any embedded component and are
omitted. -/

structure ContactInfo where
  name : String
  email : Option String := none
  phone : Option String := none
  location : Option String := none
  linkedin : Option String := none
deriving DecidableEq, Repr

structure Experience where
  company : String
  position : String
  start_date : String
  end_date : Option String := none
  current : Bool := false
  description : List String
deriving DecidableEq, Repr

structure Education where
  institution : String
  degree : String
  start_date : String
  end_date : Option String := none
  gpa : Option String := none
deriving DecidableEq, Repr

structure Skill where
  name : String
  category : Option String := none
  proficiency : Option String := none
deriving DecidableEq, Repr

structure Certification where
  name : String
  issuer : String
  date : String
deriving DecidableEq, Repr

structure Resume where
  contact_info : ContactInfo
  summary : Option String := none
  experience : List Experience := []
  education : List Education := []
  skills : List Skill := []
  certifications : List Certification := []
  raw_text : Option String := none
deriving DecidableEq, Repr

/-! ### `ResumeParser._extract_experience`

The trigger regex is
`(\d{4}|\w+\s+\d{4})\s*[-–—]\s*(\d{4}|Present|Current)`,
searched once with `re.IGNORECASE` (the trigger and the group values) and
once without (`re.split`, whose first fragment supplies the company/position
text).  The matcher below implements exactly this pattern with regex
backtracking priority: group 1 tries `\d{4}` first and then `\w+\s+\d{4}`
with the `\w+` run shrinking from its maximal length; the `\s*`/`\s+` runs
are maximal (what follows each of them is never whitespace, so this is the
backtracking semantics); group 2 tries `\d{4}`, then `Present`, then
`Current`.  `re.search` takes the leftmost position with a match. -/

/-- Match `\d{4}` at the head: the four digits and the rest. -/
def digits4 (s : List Char) : Option (List Char × List Char) :=
  match s with
  | a :: b :: c :: d :: rest =>
    if a.isDigit && b.isDigit && c.isDigit && d.isDigit then
      some ([a, b, c, d], rest)
    else none
  | _ => none

/-- Case-insensitive literal at the head: returns the matched characters
(as they appear in the input) and the rest. -/
def ciHeadMatch (w : String) (s : List Char) : Option (List Char × List Char) :=
  let p := w.toList
  if (s.take p.length).map Char.toLower = p.map Char.toLower then
    some (s.take p.length, s.drop p.length)
  else none

/-- Case-sensitive literal at the head. -/
def csHeadMatch (w : String) (s : List Char) : Option (List Char × List Char) :=
  let p := w.toList
  if s.take p.length = p then some (s.take p.length, s.drop p.length) else none

/-- Group-1 candidates at the head of `s`, in backtracking priority order:
`\d{4}` first, then `\w+\s+\d{4}` with the `\w+` length shrinking. -/
def dateG1Candidates (s : List Char) : List (List Char × List Char) :=
  let alt1 := match digits4 s with
    | some r => [r]
    | none => []
  let w := s.takeWhile pyWordChar
  let alt2 := (List.range w.length).filterMap fun i =>
    let k := w.length - i
    let rest := s.drop k
    let ws := rest.takeWhile pyWS
    if ws.isEmpty then none
    else
      match digits4 (rest.drop ws.length) with
      | some (d4, r2) => some (s.take k ++ ws ++ d4, r2)
      | none => none
  alt1 ++ alt2

/-- Group-2 match at the head of `s`: `\d{4}`, `Present` or `Current`
(the latter two case-insensitively iff `ci`). -/
def dateG2 (ci : Bool) (s : List Char) : Option (List Char × List Char) :=
  match digits4 s with
  | some r => some r
  | none =>
    let hm := if ci then ciHeadMatch else csHeadMatch
    match hm "Present" s with
    | some r => some r
    | none => hm "Current" s

/-- Try the date pattern at the head of `s`; returns the two group values. -/
def dateMatchAt (ci : Bool) (s : List Char) : Option (List Char × List Char) :=
  (dateG1Candidates s).findSome? fun g1r =>
    let r1 := g1r.2.drop (g1r.2.takeWhile pyWS).length
    match r1 with
    | c :: r2 =>
      if c = '-' || c = '–' || c = '—' then
        let r3 := r2.drop (r2.takeWhile pyWS).length
        (dateG2 ci r3).map fun g2r => (g1r.1, g2r.1)
      else none
    | [] => none

/-- Leftmost match of the date pattern: the text before the match and the
two group values (model of `re.search`, and of the first fragment of
`re.split` with the same pattern). -/
def dateSearch (ci : Bool) (pre : List Char) :
    List Char → Option (List Char × List Char × List Char)
  | [] =>
    match dateMatchAt ci [] with
    | some (g1, g2) => some (pre, g1, g2)
    | none => none
  | s@(c :: t) =>
    match dateMatchAt ci s with
    | some (g1, g2) => some (pre, g1, g2)
    | none => dateSearch ci (pre ++ [c]) t

/-- Build the `Experience` opened by a triggering line.  `preCS` is the text
before the first case-sensitive match of the date pattern (`re.split`
fragment 0), or the whole stripped line when the case-sensitive split finds
no match; `g1`/`g2` are the groups of the case-insensitive search.  The
`parts[1]` accesses after the case-sensitive " at " split are the
modelled `IndexError`. -/
def openExperience (preCS g1 g2 : List Char) : Except String Experience :=
  let company_pos := String.mk (stripCh preCS)
  let g2s := String.mk g2
  let end_date := if g2s = "Present" || g2s = "Current" then none else some g2s
  let current := g2s = "Present" || g2s = "Current"
  let pc : Except String (String × String) :=
    if strIn " at " (strToLower company_pos) then
      match splitFirst " at ".toList company_pos.toList with
      | some (a, b) => .ok (pyStrip (String.mk a), pyStrip (String.mk b))
      | none => .error "IndexError: list index out of range"
    else if strIn " - " company_pos then
      match splitFirst " - ".toList company_pos.toList with
      | some (a, b) => .ok (pyStrip (String.mk a), pyStrip (String.mk b))
      | none => .error "IndexError: list index out of range"
    else .ok (company_pos, "Unknown")
  pc.map fun p =>
    { company := p.2, position := p.1, start_date := String.mk g1,
      end_date := end_date, current := current, description := [] }

/-- The line loop of `_extract_experience`: skip blank lines; a date line
flushes the open entry and opens a new one; other lines extend the open
description of the open entry unless they start with a digit. -/
def expLoop :
    List (List Char) → Option Experience → List Experience →
      Except String (List Experience)
  | [], cur, acc => .ok (acc ++ cur.toList)
  | line :: rest, cur, acc =>
    let l := stripCh line
    if l.isEmpty then expLoop rest cur acc
    else
      match dateSearch true [] l with
      | some (_, g1, g2) =>
        let acc' := acc ++ cur.toList
        let preCS := match dateSearch false [] l with
          | some (p, _, _) => p
          | none => l
        match openExperience preCS g1 g2 with
        | .ok e => expLoop rest (some e) acc'
        | .error msg => .error msg
      | none =>
        match cur with
        | some e =>
          let e' :=
            if !l.isEmpty && !(l.headD ' ').isDigit then
              { e with description := e.description ++ [String.mk l] }
            else e
          expLoop rest (some e') acc
        | none => expLoop rest none acc

/-- `ResumeParser._extract_experience`, with the raisable `parts[1]`
accesses surfaced in `Except`. -/
def extract_experienceE (experience_text : String) :
    Except String (List Experience) :=
  if experience_text.isEmpty then .ok []
  else expLoop (splitLinesCh experience_text.toList) none []

/-! ### `ResumeParser._extract_summary` and the summary-length warning -/

/-- `ResumeParser._extract_summary`: clean, truncate at 500 characters with
an appended ellipsis, map empties to `None`. -/
def extract_summary (summary_text : String) : Option String :=
  if summary_text.isEmpty then none
  else
    let summary := clean_text summary_text
    let summary :=
      if summary.length > 500 then String.mk (summary.toList.take 500) ++ "..."
      else summary
    if summary.isEmpty then none else some summary

/-- The summary-length check of `FormatOptimizer._optimize_structure`
(line 154): `resume.summary and len(resume.summary) > 500`. -/
def summaryTooLong : Option String → Bool
  | none => false
  | some s => !s.isEmpty && s.length > 500

/-! ### `ResumeAnalyzer._calculate_metrics` and `_avg_description_length` -/

/-- The quantifiable-achievement pattern of `_calculate_metrics`:
`\d+%|\d+\+|\$\d+|\d+\s*(years|months|people|projects)`, `re.IGNORECASE`,
as an alternation of token lists (the inner group alternation is
distributed). -/
def quantAlts : List (List PTok) :=
  [ [PTok.digit1, PTok.lit '%'],
    [PTok.digit1, PTok.lit '+'],
    [PTok.lit '$', PTok.digit1],
    [PTok.digit1, PTok.ws0] ++ litStrCI "years",
    [PTok.digit1, PTok.ws0] ++ litStrCI "months",
    [PTok.digit1, PTok.ws0] ++ litStrCI "people",
    [PTok.digit1, PTok.ws0] ++ litStrCI "projects" ]

/-- Does a description line count as a quantifiable achievement? -/
def quantLine (d : String) : Bool := reSearch quantAlts d.toList

/-- Quantifiable-achievement lines of one experience entry. -/
def expQuantCount (e : Experience) : Nat := e.description.countP quantLine

/-- Count of quantifiable-achievement lines over all experience entries. -/
def quantifiableCount (r : Resume) : Nat :=
  (r.experience.map expQuantCount).sum

/-- Sum of all description-line lengths (the `total_length` accumulator of
`_avg_description_length`). -/
def descLenTotal (r : Resume) : Nat :=
  (r.experience.map fun e => (e.description.map String.length).sum).sum

/-- Number of description lines (the `total_count` accumulator). -/
def descCount (r : Resume) : Nat :=
  (r.experience.map fun e => e.description.length).sum

/-- `ResumeAnalyzer._avg_description_length` (a Python float, modelled as a
rational). -/
def avg_description_length (r : Resume) : ℚ :=
  if 0 < descCount r then (descLenTotal r : ℚ) / (descCount r : ℚ) else 0

/-- The per-entry year span inside the `try` block of `_calculate_metrics`:
`int(start_date[:4])` when the string has at least four characters else 0,
`int(end_date[:4])` when `end_date` is truthy and long enough else the
literal `2024`, contributing `end - start` when `start > 0`.  An `Except`
error is a raised `ValueError`, swallowed by the bare `except`. -/
def expYearSpanE (e : Experience) : Except Unit Int := do
  let start_year ←
    if e.start_date.length ≥ 4 then
      match pyInt? (String.mk (e.start_date.toList.take 4)) with
      | some n => Except.ok n
      | none => Except.error ()
    else Except.ok 0
  let end_year ←
    if pyTruthy e.end_date && (pyOrEmpty e.end_date).length ≥ 4 then
      match pyInt? (String.mk ((pyOrEmpty e.end_date).toList.take 4)) with
      | some n => Except.ok n
      | none => Except.error ()
    else Except.ok (2024 : Int)
  Except.ok (if start_year > 0 then end_year - start_year else 0)

/-- One loop iteration of the `total_experience_years` accumulation: the
`except: pass` makes a failed iteration contribute nothing. -/
def expYearSpan (e : Experience) : Int :=
  match expYearSpanE e with
  | .ok n => n
  | .error _ => 0

/-- The `total_experience_years` accumulation of `_calculate_metrics`. -/
def total_experience_years (exps : List Experience) : Int :=
  (exps.map expYearSpan).sum

/-- The metrics dictionary of `_calculate_metrics`. -/
structure Metrics where
  total_experience_years : Int
  number_of_positions : Nat
  number_of_skills : Nat
  number_of_certifications : Nat
  has_summary : Bool
  quantifiable_achievements : Nat
  text_length : Nat
  average_description_length : ℚ
deriving DecidableEq

/-- `ResumeAnalyzer._calculate_metrics`. -/
def calculate_metrics (r : Resume) : Metrics :=
  { total_experience_years := total_experience_years r.experience,
    number_of_positions := r.experience.length,
    number_of_skills := r.skills.length,
    number_of_certifications := r.certifications.length,
    has_summary := r.summary.isSome,
    quantifiable_achievements := quantifiableCount r,
    text_length := pyLen r.raw_text,
    average_description_length := avg_description_length r }

/-! ### `ResumeAnalyzer._calculate_ats_score` -/

/-- `ResumeAnalyzer._calculate_ats_score`: the additive rubric, in source
order, clamped by `min(100, score)`. -/
def calculate_ats_score (r : Resume) (m : Metrics) : Nat :=
  min 100
    ((if pyTruthy r.contact_info.email then 10 else 0) +
     (if pyTruthy r.contact_info.phone then 10 else 0) +
     (if pyTruthy r.summary then 10 else 0) +
     (if 0 < r.experience.length then 10 else 0) +
     (if 5 ≤ r.skills.length then 10 else 0) +
     (if 3 ≤ m.quantifiable_achievements then 15
      else if 0 < m.quantifiable_achievements then 8 else 0) +
     (if 50 < m.average_description_length then 15 else 0) +
     (if 500 ≤ m.text_length ∧ m.text_length ≤ 2000 then 20
      else if (300 ≤ m.text_length ∧ m.text_length < 500) ∨
              (2000 < m.text_length ∧ m.text_length ≤ 3000) then 10
      else 0))

/-- The ATS score of a record, as produced by `ResumeAnalyzer.analyze`
(which feeds `_calculate_metrics` into `_calculate_ats_score`). -/
def ats_score (r : Resume) : Nat :=
  calculate_ats_score r (calculate_metrics r)

/-! ### `ATSOptimizer._calculate_match_score`

`_extract_keywords` accumulates a Python `set` of lowercase keywords and
materializes it as `list(keywords)[:20]`; the list order is the iteration
order of the set.  `_calculate_match_score` re-forms a set of that list,
counts members occurring in the lowercased resume text, and computes
`int((matches / len(job_keywords)) * 100)` — for at most 20 keywords this
float computation always rounds down to the exact rational floor, so it is
modelled by natural division.  The keyword list is a parameter here, so the
set-iteration-order dependence of `_extract_keywords` can be stated
explicitly. -/

/-- `ATSOptimizer._calculate_match_score` given the extracted job-keyword
list. -/
def calculate_match_score (job_keywords : List String) (raw_text : Option String) :
    Nat :=
  let ks := job_keywords.dedup
  let resume_text := strToLower (pyOrEmpty raw_text)
  let nMatches := ks.countP fun k => strIn (strToLower k) resume_text
  let score := if 0 < ks.length then (nMatches * 100) / ks.length else 0
  min 100 score

/-- The final step of `ATSOptimizer._extract_keywords`:
`list(keywords)[:20]`, where the list order `enum` is the iteration order
of the accumulated Python set (which varies across runs under hash
randomization). -/
def keywordsTake20 (enum : List String) : List String := enum.take 20

/-- Is `enum` a possible iteration order of the finite set with underlying
elements `base`? (duplicate-free and with exactly the members of `base`). -/
def isEnumOf (enum base : List String) : Bool :=
  enum.Nodup && enum.all base.contains && base.all enum.contains

/-! ### Spec-side definitions

These follow the words of the specification (not the code) and exist only to
be compared with the definitions above. -/

/-- Spec-side ATS rubric, transcribed from the claim: 10 points each for
email, phone, summary, at least one experience entry and at least five
skills; 15/8/0 points by quantifiable-achievement count (at least 3 / one or
two / none); 15 points for average description length above 50; 20/10/0
points by raw-text length band; the sum clamped to at most 100. -/
def atsRubricSpec (hasEmail hasPhone hasSummary : Bool)
    (nExp nSkills quant textLen : Nat) (avgLen : ℚ) : Nat :=
  min 100
    ((if hasEmail then 10 else 0) +
     (if hasPhone then 10 else 0) +
     (if hasSummary then 10 else 0) +
     (if 1 ≤ nExp then 10 else 0) +
     (if 5 ≤ nSkills then 10 else 0) +
     (if 3 ≤ quant then 15 else if quant = 1 ∨ quant = 2 then 8 else 0) +
     (if 50 < avgLen then 15 else 0) +
     (if 500 ≤ textLen ∧ textLen ≤ 2000 then 20
      else if (300 ≤ textLen ∧ textLen < 500) ∨
              (2000 < textLen ∧ textLen ≤ 3000) then 10
      else 0))

/-- Spec-side per-entry year span: as `expYearSpanE`, but the end-year
default for a missing/short end date is the caller-supplied current year
(spec: "missing end_date defaulting to the caller-supplied current year
rather than a hard-coded constant"). -/
def specYearSpanE (current_year : Int) (e : Experience) : Except Unit Int := do
  let start_year ←
    if e.start_date.length ≥ 4 then
      match pyInt? (String.mk (e.start_date.toList.take 4)) with
      | some n => Except.ok n
      | none => Except.error ()
    else Except.ok 0
  let end_year ←
    if pyTruthy e.end_date && (pyOrEmpty e.end_date).length ≥ 4 then
      match pyInt? (String.mk ((pyOrEmpty e.end_date).toList.take 4)) with
      | some n => Except.ok n
      | none => Except.error ()
    else Except.ok current_year
  Except.ok (if start_year > 0 then end_year - start_year else 0)

/-- Spec-side total experience years with the caller-supplied current year. -/
def spec_total_experience_years (current_year : Int) (exps : List Experience) :
    Int :=
  (exps.map fun e =>
    match specYearSpanE current_year e with
    | .ok n => n
    | .error _ => 0).sum

/-- Rounding of the exact rational `num / den` (`den > 0`) to the nearest
integer, halves to even — the Python `round` builtin. -/
def pyRound (num den : Nat) : Nat :=
  let q := num / den
  let r := num % den
  if 2 * r < den then q
  else if den < 2 * r then q + 1
  else if q % 2 = 0 then q else q + 1

/-- Spec-side match score as the claim words it: round(100 × matches /
|job keywords|), and 0 when the keyword set is empty. -/
def match_score_round_spec (job_keywords : List String)
    (raw_text : Option String) : Nat :=
  let ks := job_keywords.dedup
  let resume_text := strToLower (pyOrEmpty raw_text)
  let nMatches := ks.countP fun k => strIn (strToLower k) resume_text
  if ks.length = 0 then 0
  else pyRound (nMatches * 100) ks.length

/-- Spec-side match score with the rounding corrected to truncation: the
floor of the exact percentage, clamped at 100, and 0 when the keyword set is
empty. -/
def match_score_floor_spec (job_keywords : List String)
    (raw_text : Option String) : Nat :=
  let ks := job_keywords.dedup
  let resume_text := strToLower (pyOrEmpty raw_text)
  let nMatches := ks.countP fun k => strIn (strToLower k) resume_text
  if ks.length = 0 then 0
  else min 100 ⌊((nMatches * 100 : Nat) : ℚ) / ((ks.length : Nat) : ℚ)⌋₊

/-! ### Concrete sample inputs used by counterexamples and witnesses -/

/-- An experience entry with a missing end date. -/
def expMissingEnd : Experience :=
  { company := "Acme", position := "Engineer", start_date := "2020",
    end_date := none, current := true, description := [] }

/-- A record with one experience entry whose end date is missing. -/
def sampleMissingEnd : Resume :=
  { contact_info := { name := "Jane Doe" }, experience := [expMissingEnd] }

/-- A 60-character description line with no quantifiable pattern. -/
def longPlainLine : String :=
  "maintained the primary service infrastructure with diligence"

/-- An experience entry whose single description line is `longPlainLine`. -/
def expOneLongLine : Experience :=
  { company := "Acme", position := "Engineer", start_date := "2020",
    description := [longPlainLine] }

/-- A record whose single description line is `longPlainLine`. -/
def quantBaseResume : Resume :=
  { contact_info := { name := "Jane Doe" }, experience := [expOneLongLine] }

/-- `quantBaseResume` with one additional short quantifiable line
appended to the description of the same entry. -/
def quantAddedResume : Resume :=
  { contact_info := { name := "Jane Doe" },
    experience :=
      [{ expOneLongLine with
          description := expOneLongLine.description ++ ["5%"] }] }

/-- Twenty distinct lowercase job keywords other than "python". -/
def kwOthers20 : List String :=
  ["java", "sql", "aws", "docker", "kubernetes", "react", "angular",
   "leadership", "management", "communication", "teamwork", "analytics",
   "strategy", "design", "testing", "cloud", "security", "devops",
   "linux", "scrum"]

/-- A 21-element job-keyword set containing "python". -/
def kwBase21 : List String := "python" :: kwOthers20

/-- `ats_score` with the average-length test expressed on naturals; unlike
`ats_score` itself this form evaluates inside the kernel. -/
def ats_score_nat (r : Resume) : Nat :=
  min 100
    ((if pyTruthy r.contact_info.email then 10 else 0) +
     (if pyTruthy r.contact_info.phone then 10 else 0) +
     (if pyTruthy r.summary then 10 else 0) +
     (if 0 < r.experience.length then 10 else 0) +
     (if 5 ≤ r.skills.length then 10 else 0) +
     (if 3 ≤ quantifiableCount r then 15
      else if 0 < quantifiableCount r then 8 else 0) +
     (if 0 < descCount r ∧ 50 * descCount r < descLenTotal r then 15 else 0) +
     (if 500 ≤ pyLen r.raw_text ∧ pyLen r.raw_text ≤ 2000 then 20
      else if (300 ≤ pyLen r.raw_text ∧ pyLen r.raw_text < 500) ∨
              (2000 < pyLen r.raw_text ∧ pyLen r.raw_text ≤ 3000) then 10
      else 0))

/-- Assemble a record from explicit parts (used to state "all other inputs
fixed" in the monotonicity claims). -/
def mkResume (ci : ContactInfo) (summ : Option String) (exps : List Experience)
    (edu : List Education) (sk : List Skill) (ce : List Certification)
    (raw : Option String) : Resume :=
  { contact_info := ci, summary := summ, experience := exps, education := edu,
    skills := sk, certifications := ce, raw_text := raw }

/-- Append one description line to an experience entry. -/
def withExtraLine (e : Experience) (d : String) : Experience :=
  { e with description := e.description ++ [d] }

/-- A 54-character description line containing the qualifying pattern
"30%". -/
def monotoneWitnessLine : String :=
  "improved system performance by 30% across all projects"

/-- A 501-character summary section. -/
def longSummaryInput : String := String.mk (List.replicate 501 'a')

end ResumeForge

namespace ResumeForge

/-! ### Helper lemmas on the rational average -/

/-- The float comparison `average_description_length > 50` in integer
terms. -/
theorem avg_gt_fifty_iff (r : Resume) :
    50 < avg_description_length r ↔
      0 < descCount r ∧ 50 * descCount r < descLenTotal r := by
  unfold avg_description_length
  by_cases h : 0 < descCount r
  · rw [if_pos h]
    have h0 : (0 : ℚ) < (descCount r : ℚ) := by exact_mod_cast h
    rw [lt_div_iff₀ h0]
    constructor
    · intro hx
      exact ⟨h, by exact_mod_cast hx⟩
    · intro hx
      exact_mod_cast hx.2
  · rw [if_neg h]
    simp only [h, false_and, iff_false]
    norm_num


theorem ats_score_eq_nat (r : Resume) : ats_score r = ats_score_nat r := by
  unfold ats_score calculate_ats_score calculate_metrics ats_score_nat
  dsimp only
  rw [if_congr (avg_gt_fifty_iff r) rfl rfl]

/-! ### Claim C2 -/

/-- C2: the claim states `clean_text` is idempotent; it is not.  Character
removal runs after whitespace collapsing, so removing `@` from `"a @ b"`
leaves the double space `"a  b"`, which a second application collapses to
`"a b"`. -/
theorem clean_text_not_idempotent :
    clean_text "a @ b" = "a  b" ∧ clean_text (clean_text "a @ b") = "a b" ∧
      clean_text (clean_text "a @ b") ≠ clean_text "a @ b" := by
  refine ⟨rfl, rfl, ?_⟩
  decide

/-! ### Claim C4 -/

/-- C4: the claim states no extraction stage raises on any plain-text
input; `_extract_experience` raises `IndexError`.  On this line the
" at "-in-lowered-text guard passes (the lowercased text contains
" at "), but the case-sensitive split on " at " finds no
separator, so `parts[1]` is out of range. -/
theorem extract_experience_raises_index_error :
    extract_experienceE "Manager At Large Company 2020 - 2023" =
      .error "IndexError: list index out of range" := by
  rfl

/-! ### Claim C5 -/

/-- C5 counterexample: for a record whose experience entry has no end date,
the metrics use the hard-coded year 2024 (span 4 from 2020), which differs
from the spec-side computation at the caller-supplied current year 2025
(span 5).  No current-year parameter exists in `_calculate_metrics`. -/
theorem metrics_end_year_default_ignores_caller_year :
    (calculate_metrics sampleMissingEnd).total_experience_years = 4 ∧
      spec_total_experience_years 2025 sampleMissingEnd.experience = 5 ∧
      (calculate_metrics sampleMissingEnd).total_experience_years ≠
        spec_total_experience_years 2025 sampleMissingEnd.experience := by
  refine ⟨rfl, rfl, ?_⟩
  decide

/-- C5 amended: the missing-end-date default is the hard-coded constant
2024 — the code computation coincides with the spec-side parameterized
computation exactly at current year 2024. -/
theorem total_years_uses_constant_2024 (r : Resume) :
    (calculate_metrics r).total_experience_years =
      spec_total_experience_years 2024 r.experience := by
  rfl

/-! ### Claim C7 -/

/-- C7 counterexample: with keywords python/sql/java and a resume containing
the first two, the code computes `int((2/3)*100) = 66` (truncation), while
the round of 100 × 2/3 stated by the claim is 67. -/
theorem match_score_truncates_not_rounds :
    calculate_match_score ["python", "sql", "java"] (some "python sql code") =
        66 ∧
      match_score_round_spec ["python", "sql", "java"]
        (some "python sql code") = 67 := by
  constructor
  · rfl
  · decide

/-! ### Claim C8 -/

/-- C8: the claim states the end token is compared case-insensitively; the
membership test against the exact strings Present and Current is
case-sensitive.  The
`re.IGNORECASE` trigger accepts `"present"`, which then yields
`current = False` and `end_date = "present"` instead of `current = True`
and no end date.  (The case-sensitive `re.split` also fails to find the
match, so the whole line becomes the company/position text and is split on
`" - "`.) -/
theorem extract_experience_lowercase_present_not_current :
    extract_experienceE "2020 - present" =
      .ok [{ company := "present", position := "2020",
             start_date := "2020", end_date := some "present",
             current := false, description := [] }] := by
  rfl

/-! ### Claim C9 -/

/-- C9: `_extract_keywords` returns `list(keywords)[:20]` of a 21-element
Python set, so the returned keywords — and with them `match_score` — depend
on the iteration order of the set, which varies across runs under hash
randomization.  Two valid iteration orders of the same 21-keyword set give
match scores 5 and 0 on the same resume text. -/
theorem match_score_depends_on_set_iteration_order :
    isEnumOf kwBase21 kwBase21 = true ∧
      isEnumOf (kwOthers20 ++ ["python"]) kwBase21 = true ∧
      calculate_match_score (keywordsTake20 kwBase21)
          (some "python developer") ≠
        calculate_match_score (keywordsTake20 (kwOthers20 ++ ["python"]))
          (some "python developer") := by
  refine ⟨by decide, by decide, by decide⟩

end ResumeForge

namespace ResumeForge

/-! ### Claim C1 -/

/-- C1: the ATS score of every record equals the claimed additive
100-point rubric evaluated at the measures of the record, and always lies in
[0, 100] (the score is a natural number, so only the upper bound is
stated). -/
theorem ats_score_matches_rubric (r : Resume) :
    ats_score r =
      atsRubricSpec (pyTruthy r.contact_info.email)
        (pyTruthy r.contact_info.phone) (pyTruthy r.summary)
        r.experience.length r.skills.length (quantifiableCount r)
        (pyLen r.raw_text) (avg_description_length r) ∧
    ats_score r ≤ 100 := by
  constructor
  · unfold ats_score calculate_ats_score calculate_metrics atsRubricSpec
    dsimp only
    have hq : (if 3 ≤ quantifiableCount r then (15 : Nat)
        else if 0 < quantifiableCount r then 8 else 0) =
        (if 3 ≤ quantifiableCount r then 15
        else if quantifiableCount r = 1 ∨ quantifiableCount r = 2 then 8
        else 0) := by
      by_cases h3 : 3 ≤ quantifiableCount r
      · simp [h3]
      · by_cases h0 : 0 < quantifiableCount r
        · have h12 : quantifiableCount r = 1 ∨ quantifiableCount r = 2 := by
            omega
          simp [h3, h0, h12]
        · have h12 : ¬(quantifiableCount r = 1 ∨ quantifiableCount r = 2) := by
            omega
          simp [h3, h0, h12]
    rw [hq]
    rfl
  · unfold ats_score calculate_ats_score
    exact Nat.min_le_left _ _

end ResumeForge

namespace ResumeForge

/-! ### Claim C6 -/



theorem mkResume_contact (ci summ exps edu sk ce raw) :
    (mkResume ci summ exps edu sk ce raw).contact_info = ci := rfl

theorem mkResume_summary (ci summ exps edu sk ce raw) :
    (mkResume ci summ exps edu sk ce raw).summary = summ := rfl

theorem mkResume_experience (ci summ exps edu sk ce raw) :
    (mkResume ci summ exps edu sk ce raw).experience = exps := rfl

theorem mkResume_skills (ci summ exps edu sk ce raw) :
    (mkResume ci summ exps edu sk ce raw).skills = sk := rfl

theorem mkResume_raw (ci summ exps edu sk ce raw) :
    (mkResume ci summ exps edu sk ce raw).raw_text = raw := rfl

/-- C6 counterexample: the claim says adding any qualifying
quantifiable-achievement line never decreases the score; adding the
2-character qualifying line "5%" to `quantBaseResume` drops the average
description length from 60 to 31, losing the 15 average-length points
while gaining only 8 quantifiable points. -/
theorem ats_score_drops_on_short_quant_line :
    quantLine "5%" = true ∧
      ats_score quantAddedResume < ats_score quantBaseResume := by
  constructor
  · decide
  · rw [ats_score_eq_nat, ats_score_eq_nat]
    decide

/-- C6 amended: adding one qualifying quantifiable-achievement line of
length greater than 50 characters (all other inputs fixed) never decreases
the ATS score. -/
theorem ats_score_monotone_long_quant_line
    (ci : ContactInfo) (summ raw : Option String) (edu : List Education)
    (sk : List Skill) (ce : List Certification)
    (pre post : List Experience) (e : Experience) (d : String)
    (hq : quantLine d = true) (hl : 50 < d.length) :
    ats_score (mkResume ci summ (pre ++ [e] ++ post) edu sk ce raw) ≤
      ats_score
        (mkResume ci summ (pre ++ [withExtraLine e d] ++ post) edu sk ce raw) := by
  have hqc :
      quantifiableCount
          (mkResume ci summ (pre ++ [withExtraLine e d] ++ post) edu sk ce raw) =
        quantifiableCount (mkResume ci summ (pre ++ [e] ++ post) edu sk ce raw) +
          1 := by
    simp [quantifiableCount, mkResume, withExtraLine, expQuantCount, hq]
    omega
  have hdc :
      descCount
          (mkResume ci summ (pre ++ [withExtraLine e d] ++ post) edu sk ce raw) =
        descCount (mkResume ci summ (pre ++ [e] ++ post) edu sk ce raw) + 1 := by
    simp [descCount, mkResume, withExtraLine]
    omega
  have hdt :
      descLenTotal
          (mkResume ci summ (pre ++ [withExtraLine e d] ++ post) edu sk ce raw) =
        descLenTotal (mkResume ci summ (pre ++ [e] ++ post) edu sk ce raw) +
          d.length := by
    simp [descLenTotal, mkResume, withExtraLine]
    omega
  have hel : (pre ++ [withExtraLine e d] ++ post).length =
      (pre ++ [e] ++ post).length := by simp
  rw [ats_score_eq_nat, ats_score_eq_nat]
  unfold ats_score_nat
  rw [hqc, hdc, hdt]
  simp only [mkResume_contact, mkResume_summary, mkResume_experience,
    mkResume_skills, mkResume_raw, hel]
  apply min_le_min (le_refl 100)
  apply add_le_add
  apply add_le_add
  apply add_le_add (le_refl _)
  · -- quantifiable points are monotone in the count
    generalize quantifiableCount (mkResume ci summ (pre ++ [e] ++ post)
      edu sk ce raw) = q
    split_ifs <;> omega
  · -- average-length points persist when the added line is longer than 50
    generalize hT : descLenTotal (mkResume ci summ (pre ++ [e] ++ post)
      edu sk ce raw) = T
    generalize hn : descCount (mkResume ci summ (pre ++ [e] ++ post)
      edu sk ce raw) = n
    split_ifs <;> omega
  · exact le_refl _

end ResumeForge

namespace ResumeForge


/-- Witness for the amended C6 monotonicity theorem at a concrete record. -/
theorem ats_score_monotone_long_quant_line_witness :
    quantLine monotoneWitnessLine = true ∧
      50 < monotoneWitnessLine.length ∧
      ats_score
          (mkResume { name := "Jane Doe" } none ([] ++ [expOneLongLine] ++ [])
            [] [] [] none) ≤
        ats_score
          (mkResume { name := "Jane Doe" } none
            ([] ++ [withExtraLine expOneLongLine monotoneWitnessLine] ++ [])
            [] [] [] none) :=
  ⟨by decide, by decide,
    ats_score_monotone_long_quant_line { name := "Jane Doe" } none none [] [] []
      [] [] expOneLongLine monotoneWitnessLine (by decide) (by decide)⟩

/-! ### Claim C7, amended -/

/-- C7 amended: the match score is the floor (truncation) of the exact
percentage of job keywords found in the resume text, clamped at 100, and 0
when the deduplicated keyword set is empty. -/
theorem match_score_is_floor (kws : List String) (raw : Option String) :
    calculate_match_score kws raw = match_score_floor_spec kws raw := by
  unfold calculate_match_score match_score_floor_spec
  dsimp only
  by_cases h : kws.dedup.length = 0
  · simp [h]
  · have h0 : 0 < kws.dedup.length := Nat.pos_of_ne_zero h
    rw [if_neg h, if_pos h0, Nat.floor_div_eq_div]

/-! ### Claim C10 -/

/-- C10: an extracted summary is `None` or at most 503 characters; when the
cleaned summary section exceeds 500 characters the result is exactly its
first 500 characters plus "...", which triggers the downstream over-500
summary-length warning. -/
theorem extract_summary_length_bounded (s : String) :
    (∀ t, extract_summary s = some t → t.length ≤ 503) ∧
    (500 < (clean_text s).length →
      extract_summary s =
          some (String.mk ((clean_text s).toList.take 500) ++ "...") ∧
        summaryTooLong (extract_summary s) = true) := by
  by_cases hs : s.isEmpty
  · constructor
    · intro t ht
      simp [extract_summary, hs] at ht
    · intro hlen
      rw [clean_text, if_pos hs] at hlen
      simp at hlen
  · have hs' : s.isEmpty = false := by
      revert hs; cases s.isEmpty <;> simp
    have htake : 500 < (clean_text s).length →
        (String.mk ((clean_text s).toList.take 500) ++ "...").length = 503 := by
      intro h5
      rw [String.length_append]
      have h1 : (String.mk ((clean_text s).toList.take 500)).length =
          ((clean_text s).toList.take 500).length := rfl
      have h2 : ("..." : String).length = 3 := rfl
      have h3 : (clean_text s).toList.length = (clean_text s).length := rfl
      rw [h1, h2, List.length_take, h3]
      omega
    constructor
    · intro t ht
      simp only [extract_summary, hs', Bool.false_eq_true, if_false] at ht
      by_cases h5 : (clean_text s).length > 500
      · rw [if_pos h5] at ht
        split at ht
        · exact absurd ht (by simp)
        · cases ht
          exact le_of_eq (htake h5)
      · rw [if_neg h5] at ht
        split at ht
        · exact absurd ht (by simp)
        · cases ht
          omega
    · intro h5
      have hlen503 := htake h5
      have hne : (String.mk ((clean_text s).toList.take 500) ++ "...").isEmpty =
          false := by
        cases hh : (String.mk ((clean_text s).toList.take 500) ++ "...").isEmpty
        · rfl
        · exfalso
          have hX := (String.isEmpty_iff _).1 hh
          rw [hX] at hlen503
          exact (by decide : ¬("" : String).length = 503) hlen503
      have hval : extract_summary s =
          some (String.mk ((clean_text s).toList.take 500) ++ "...") := by
        simp only [extract_summary, hs', Bool.false_eq_true, if_false,
          if_pos h5, hne, if_false]
      refine ⟨hval, ?_⟩
      rw [hval]
      unfold summaryTooLong
      simp
      have hdots : ("..." : String).length = 3 := rfl
      exact ⟨hne, by omega⟩

end ResumeForge

namespace ResumeForge


set_option maxRecDepth 8192 in
/-- Witness for the C10 bound at a concrete over-long summary. -/
theorem extract_summary_length_bounded_witness :
    500 < (clean_text longSummaryInput).length ∧
      (String.mk ((clean_text longSummaryInput).toList.take 500) ++
          "...").length ≤ 503 ∧
      summaryTooLong (extract_summary longSummaryInput) = true :=
  ⟨by decide,
    (extract_summary_length_bounded longSummaryInput).1 _
      ((extract_summary_length_bounded longSummaryInput).2 (by decide)).1,
    ((extract_summary_length_bounded longSummaryInput).2 (by decide)).2⟩

end ResumeForge

namespace ResumeForge

/-! ### Claim C3: the section patterns can never match a line

Each pattern of `split_into_sections` ends in a literal `\n` and is searched
against `line.upper().strip()` — a string that cannot contain a newline.
The lemmas below make this precise, so the loop provably routes every line
into the `header` buffer. -/

/-- Whatever a token consumes, the rest is made of characters of `s`. -/
theorem mem_of_tokConsume {t : PTok} {s s2 : List Char}
    (h : s2 ∈ tokConsume t s) {c : Char} (hc : c ∈ s2) : c ∈ s := by
  cases t with
  | lit ch =>
    cases s with
    | nil => simp [tokConsume] at h
    | cons d ds =>
      simp only [tokConsume] at h
      split at h
      · simp at h
        subst h
        exact List.mem_cons_of_mem _ hc
      · simp at h
  | litCI ch =>
    cases s with
    | nil => simp [tokConsume] at h
    | cons d ds =>
      simp only [tokConsume] at h
      split at h
      · simp at h
        subst h
        exact List.mem_cons_of_mem _ hc
      · simp at h
  | digit1 =>
    simp only [tokConsume, List.mem_map] at h
    obtain ⟨i, _, rfl⟩ := h
    exact List.mem_of_mem_drop hc
  | ws0 =>
    simp only [tokConsume, List.mem_map] at h
    obtain ⟨i, _, rfl⟩ := h
    exact List.mem_of_mem_drop hc
  | ws1 =>
    simp only [tokConsume, List.mem_map] at h
    obtain ⟨i, _, rfl⟩ := h
    exact List.mem_of_mem_drop hc
  | optChar ch =>
    cases s with
    | nil =>
      simp [tokConsume] at h
      subst h
      simp at hc
    | cons d ds =>
      simp only [tokConsume] at h
      split at h
      · simp at h
        rcases h with rfl | rfl
        · exact hc
        · exact List.mem_cons_of_mem _ hc
      · simp at h
        subst h
        exact hc

/-- A successful match places every literal of the token list in `s`. -/
theorem reMatchAt_lit_mem :
    ∀ (toks : List PTok) (s : List Char), reMatchAt toks s = true →
      ∀ c : Char, PTok.lit c ∈ toks → c ∈ s := by
  intro toks
  induction toks with
  | nil =>
    intro s _ c hc
    simp at hc
  | cons t ts ih =>
    intro s h c hc
    rw [reMatchAt, List.any_eq_true] at h
    obtain ⟨s2, hs2, hm⟩ := h
    rcases List.mem_cons.1 hc with heq | hts
    · cases heq
      cases s with
      | nil => simp [tokConsume] at hs2
      | cons d ds =>
        simp only [tokConsume] at hs2
        split at hs2
        · rename_i hcd
          rw [hcd]
          exact List.mem_cons_self _ _
        · simp at hs2
    · exact mem_of_tokConsume hs2 (ih s2 hm c hts)

/-- A search for patterns that all require a literal newline fails on any
newline-free string. -/
theorem reSearch_false_of_no_newline {alts : List (List PTok)}
    (halts : ∀ t ∈ alts, PTok.lit '\n' ∈ t) :
    ∀ s : List Char, '\n' ∉ s → reSearch alts s = false := by
  intro s
  induction s with
  | nil =>
    intro _
    rw [reSearch, List.any_eq_false]
    intro t ht
    cases hm : reMatchAt t [] with
    | false => simp
    | true =>
      exact absurd (reMatchAt_lit_mem t [] hm '\n' (halts t ht))
        (List.not_mem_nil _)
  | cons d ds ih =>
    intro hnl
    rw [reSearch, Bool.or_eq_false_iff]
    constructor
    · rw [List.any_eq_false]
      intro t ht
      cases hm : reMatchAt t (d :: ds) with
      | false => simp
      | true =>
        exact absurd (reMatchAt_lit_mem _ _ hm '\n' (halts t ht)) hnl
    · exact ih fun hmem => hnl (List.mem_cons_of_mem _ hmem)

/-- No section pattern can match a newline-free string. -/
theorem sectionHeaderFor_eq_none {line : List Char} (h : '\n' ∉ line) :
    sectionHeaderFor line = none := by
  have halts : ∀ p ∈ sectionPatterns, ∀ t ∈ p.2, PTok.lit '\n' ∈ t := by
    decide
  rw [sectionHeaderFor]
  apply List.findSome?_eq_none_iff.mpr
  intro p hp
  rw [reSearch_false_of_no_newline (halts p hp) line h]
  rfl

/-- Uppercasing never produces a newline. -/
theorem toUpper_ne_newline {c : Char} (h : c ≠ '\n') : c.toUpper ≠ '\n' := by
  intro hu
  apply h
  unfold Char.toUpper at hu
  simp only [] at hu
  split at hu
  · rename_i hl
    exfalso
    have hval := congrArg Char.toNat hu
    have h90 : c.toNat - 32 < 55296 := by
      simp [Char.toNat] at hl ⊢
      omega
    have hv : (c.toNat - 32).isValidChar := Or.inl h90
    rw [Char.ofNat, dif_pos hv] at hval
    simp [Char.ofNatAux, Char.toNat, UInt32.toNat] at hval
    simp [Char.toNat, UInt32.toNat] at hl
    omega
  · exact hu

/-- Stripping keeps only characters of the input. -/
theorem mem_of_mem_stripCh {c : Char} {l : List Char} (h : c ∈ stripCh l) :
    c ∈ l := by
  unfold stripCh dropTrailing at h
  rw [List.mem_reverse] at h
  have h1 := (List.dropWhile_sublist (l := (l.dropWhile pyWS).reverse)
    (p := pyWS)).subset h
  rw [List.mem_reverse] at h1
  exact (List.dropWhile_sublist (l := l) (p := pyWS)).subset h1

/-- The upper-cased, stripped form of a newline-free line is newline-free. -/
theorem no_newline_in_upper_strip {line : List Char} (h : '\n' ∉ line) :
    '\n' ∉ stripCh (line.map Char.toUpper) := by
  intro hmem
  have h2 : '\n' ∈ line.map Char.toUpper := mem_of_mem_stripCh hmem
  rw [List.mem_map] at h2
  obtain ⟨c, hc, hceq⟩ := h2
  exact toUpper_ne_newline (fun hcn => h (hcn ▸ hc)) hceq

/-- Python `split` never returns an empty list. -/
theorem splitLinesCh_ne_nil (l : List Char) : splitLinesCh l ≠ [] := by
  cases l with
  | nil => simp [splitLinesCh]
  | cons c t =>
    rw [splitLinesCh]
    split
    · simp
    · rcases h : splitLinesCh t with _ | ⟨l0, ls⟩ <;> simp

/-- The pieces of `split('\n')` contain no newline. -/
theorem splitLinesCh_no_newline : ∀ l : List Char, ∀ p ∈ splitLinesCh l,
    '\n' ∉ p := by
  intro l
  induction l with
  | nil =>
    intro p hp
    simp [splitLinesCh] at hp
    subst hp
    simp
  | cons c t ih =>
    intro p hp
    rw [splitLinesCh] at hp
    by_cases hc : c = '\n'
    · rw [if_pos hc] at hp
      rcases List.mem_cons.1 hp with rfl | hp2
      · simp
      · exact ih p hp2
    · rw [if_neg hc] at hp
      rcases hsp : splitLinesCh t with _ | ⟨l0, ls⟩
      · exact absurd hsp (splitLinesCh_ne_nil t)
      · rw [hsp] at hp
        rcases List.mem_cons.1 hp with rfl | hp2
        · intro hmem
          rcases List.mem_cons.1 hmem with h1 | h2
          · exact hc h1.symm
          · exact ih l0 (by rw [hsp]; exact List.mem_cons_self _ _) h2
        · exact ih p (by rw [hsp]; exact List.mem_cons_of_mem _ hp2)

/-- Joining the split pieces with newlines reconstructs the input. -/
theorem joinLinesCh_splitLinesCh : ∀ l : List Char,
    joinLinesCh (splitLinesCh l) = l := by
  intro l
  induction l with
  | nil => rfl
  | cons c t ih =>
    rw [splitLinesCh]
    by_cases hc : c = '\n'
    · rw [if_pos hc]
      subst hc
      rcases hsp : splitLinesCh t with _ | ⟨l0, ls⟩
      · exact absurd hsp (splitLinesCh_ne_nil t)
      · rw [hsp] at ih
        simp [joinLinesCh, ih]
    · rw [if_neg hc]
      rcases hsp : splitLinesCh t with _ | ⟨l0, ls⟩
      · exact absurd hsp (splitLinesCh_ne_nil t)
      · rw [hsp] at ih
        cases ls with
        | nil =>
          simp [joinLinesCh] at ih ⊢
          rw [ih]
        | cons m ms =>
          simp [joinLinesCh] at ih ⊢
          exact ih

/-- With no header line ever matching, the loop accumulates every line into
the current (initially `header`) buffer. -/
theorem splitSectionsLoop_all_header :
    ∀ lines : List (List Char), (∀ p ∈ lines, '\n' ∉ p) →
      ∀ (curText : List (List Char)) (secs : List (String × String))
        (curSec : String),
        splitSectionsLoop lines curSec curText secs =
          if (curText ++ lines).isEmpty then secs
          else dictSet secs curSec (String.mk (joinLinesCh (curText ++ lines))) := by
  intro lines
  induction lines with
  | nil =>
    intro _ curText secs curSec
    rw [splitSectionsLoop]
    simp
  | cons line rest ih =>
    intro h curText secs curSec
    rw [splitSectionsLoop,
      sectionHeaderFor_eq_none
        (no_newline_in_upper_strip (h line (List.mem_cons_self _ _)))]
    show splitSectionsLoop rest curSec (curText ++ [line]) secs = _
    rw [ih (fun p hp => h p (List.mem_cons_of_mem _ hp)) (curText ++ [line])
      secs curSec]
    rw [List.append_assoc]
    rfl

/-- `split_into_sections` always produces the single `header` entry holding
the whole text: the header patterns demand a literal newline (and lowercase
letters), but are searched against upper-cased single lines. -/
theorem split_into_sections_eq (text : String) :
    split_into_sections text = [("header", text)] := by
  rw [split_into_sections,
    splitSectionsLoop_all_header _ (splitLinesCh_no_newline _) [] [] "header"]
  rw [List.nil_append]
  have hne : (splitLinesCh text.toList).isEmpty = false := by
    rcases h : splitLinesCh text.toList with _ | ⟨a, b⟩
    · exact absurd h (splitLinesCh_ne_nil _)
    · rfl
  rw [hne]
  simp only [Bool.false_eq_true, if_false]
  rw [joinLinesCh_splitLinesCh]
  have hmk : String.mk text.toList = text := by cases text; rfl
  rw [hmk]
  rfl

/-- C3: section segmentation partitions the input lines — every line lands
in exactly one buffer (here: all in `header`), concatenating the buffers in
order reconstructs the input (no line is discarded), and every named
section is absent from the output map. -/
theorem segmentation_partitions_lines (text : String) :
    ((split_into_sections text).map fun kv => linesOf kv.2).flatten =
        linesOf text ∧
    String.intercalate "\n" ((split_into_sections text).map Prod.snd) = text ∧
    (sectionNames.all fun n =>
        ((split_into_sections text).lookup n).isNone) = true := by
  rw [split_into_sections_eq]
  refine ⟨?_, ?_, ?_⟩
  · simp
  · rfl
  · rfl

end ResumeForge
